import Mathlib

/-!
Verification development for the Semantic-Search repository.

The Python modules `config.py`, `model_loader.py`, `database_manager.py`,
`search_engine.py` and `ingestion.py` are shallowly embedded below: pure
computations become Lean functions, the Qdrant store becomes an explicit
`StoreState` threaded through the operations, Python exceptions become
`Except PyError`, and the sequence of encoder and store calls made by the
retrieval orchestrator becomes an explicit list of `Action`s.
Numeric vector entries are rationals (the raw data the backends hand over);
the renormalization step of `encode_dense` divides by a real square root,
so renormalized vectors live in `List ℝ`.
-/

set_option maxRecDepth 4000

namespace SemSearch

/-! ### config.py -/

/-- config.EMBEDDING_DIM (512). -/
def EMBEDDING_DIM : Nat := 512

/-- config.COLLECTION_NAME. -/
def COLLECTION_NAME : String := "products"

/-- config.TOP_K, the default number of search results. -/
def TOP_K : Int := 5

/-- config.SEARCH_MODE, the default search mode. -/
def SEARCH_MODE : String := "sparse"

/-- config.BATCH_SIZE, the default ingestion batch size. -/
def BATCH_SIZE : Nat := 32

/-! ### Python semantics helpers -/

/-- Python `x or d` where `x` is an optional integer: `None` and `0` are falsy. -/
def pyOrInt : Option Int → Int → Int
  | none, d => d
  | some v, d => if v = 0 then d else v

/-- Python `x or d` where `x` is an optional string: `None` and `""` are falsy. -/
def pyOrStr : Option String → String → String
  | none, d => d
  | some s, d => if s = "" then d else s

/-- Python `x or d` where `x` is an optional natural number (batch sizes). -/
def pyOrNat : Option Nat → Nat → Nat
  | none, d => d
  | some v, d => if v = 0 then d else v

/-- The Python exceptions the embedded code can raise. `ValueError` is the
repository's concrete stand-in for the ValidationError of the spec taxonomy. -/
inductive PyError
  | attributeError (msg : String)
  | valueError (msg : String)
deriving DecidableEq, Repr

/-! ### Vector arithmetic -/

/-- Sum of squares of a rational vector (the square of its L2 norm). -/
def sumsq (v : List ℚ) : ℚ := (v.map (fun x => x * x)).sum

/-- Sum of squares of a real vector (the square of its L2 norm). -/
def sumsqR (v : List ℝ) : ℝ := (v.map (fun x => x * x)).sum

/-- A rational vector viewed as a real vector. -/
noncomputable def castRow (v : List ℚ) : List ℝ := v.map (fun (x : ℚ) => (x : ℝ))

/-- Division of a vector by its own L2 norm, the `embeddings / norms` step of
model_loader.encode_dense. -/
noncomputable def renormalize (v : List ℚ) : List ℝ :=
  v.map (fun (x : ℚ) => (x : ℝ) / Real.sqrt ((sumsq v : ℝ)))

/-- numpy `embeddings.shape[1]`: the common row width of a rectangular matrix,
read off the first row. -/
def embWidth : List (List ℚ) → Nat
  | [] => 0
  | r :: _ => r.length

/-! ### model_loader.py -/

/-- model_loader.encode_dense, modelled as a function of the raw embedding
matrix produced by the selected backend (the parsed TEI response rows, or the
local model's `normalize_embeddings=True` output rows), exactly as the code
holds it in `embeddings` just before the shared truncation step: when the
width exceeds `config.EMBEDDING_DIM` each row is cut to its first
`EMBEDDING_DIM` components and divided by the norm of that slice; otherwise
the rows are returned unchanged. -/
noncomputable def encode_dense (raw : List (List ℚ)) : List (List ℝ) :=
  if EMBEDDING_DIM < embWidth raw then
    raw.map (fun r => renormalize (r.take EMBEDDING_DIM))
  else
    raw.map castRow

/-! ### Lemmas about the vector arithmetic -/

theorem sumsq_nil : sumsq [] = 0 := rfl

theorem sumsq_cons (a : ℚ) (l : List ℚ) : sumsq (a :: l) = a * a + sumsq l := by
  simp [sumsq]

theorem sumsqR_cons (a : ℝ) (l : List ℝ) : sumsqR (a :: l) = a * a + sumsqR l := by
  simp [sumsqR]

theorem sumsq_nonneg (v : List ℚ) : 0 ≤ sumsq v := by
  induction v with
  | nil => simp [sumsq]
  | cons a l ih =>
      rw [sumsq_cons]
      have ha : 0 ≤ a * a := mul_self_nonneg a
      linarith

theorem sumsq_eq_zero_of_all_zero (v : List ℚ) (h : ∀ x ∈ v, x = 0) : sumsq v = 0 := by
  induction v with
  | nil => rfl
  | cons a l ih =>
      rw [sumsq_cons, ih (fun x hx => h x (List.mem_cons_of_mem a hx)),
        h a (List.mem_cons_self a l)]
      ring

theorem exists_ne_zero_of_sumsq_ne_zero (v : List ℚ) (h : sumsq v ≠ 0) :
    ∃ x ∈ v, x ≠ 0 := by
  by_contra hall
  push_neg at hall
  exact h (sumsq_eq_zero_of_all_zero v hall)

theorem sumsqR_map_div (v : List ℚ) (c : ℝ) :
    sumsqR (v.map (fun (x : ℚ) => (x : ℝ) / c)) = (sumsq v : ℝ) / (c * c) := by
  induction v with
  | nil => simp [sumsqR, sumsq]
  | cons a l ih =>
      rw [List.map_cons, sumsqR_cons, ih, sumsq_cons]
      push_cast
      rw [div_mul_div_comm, div_add_div_same]

theorem renormalize_length (v : List ℚ) : (renormalize v).length = v.length := by
  simp [renormalize]

theorem castRow_length (v : List ℚ) : (castRow v).length = v.length := by
  simp [castRow]

theorem sumsqR_renormalize (v : List ℚ) (h : sumsq v ≠ 0) :
    sumsqR (renormalize v) = 1 := by
  have hpos : (0 : ℝ) < (sumsq v : ℝ) := by
    have h0 := sumsq_nonneg v
    have : (0 : ℚ) < sumsq v := lt_of_le_of_ne h0 (Ne.symm h)
    exact_mod_cast this
  rw [renormalize, sumsqR_map_div]
  rw [Real.mul_self_sqrt (le_of_lt hpos)]
  exact div_self (ne_of_gt hpos)

theorem renormalize_ne_castRow (v : List ℚ) (h0 : sumsq v ≠ 0) (h1 : sumsq v ≠ 1) :
    renormalize v ≠ castRow v := by
  intro heq
  rw [renormalize, castRow] at heq
  obtain ⟨x, hx, hxne⟩ := exists_ne_zero_of_sumsq_ne_zero v h0
  have hpt : (x : ℝ) / Real.sqrt ((sumsq v : ℝ)) = (x : ℝ) :=
    List.map_inj_left.mp heq x hx
  have hxR : (x : ℝ) ≠ 0 := by exact_mod_cast hxne
  have hc : Real.sqrt ((sumsq v : ℝ)) = 1 := by
    rcases eq_or_ne (Real.sqrt ((sumsq v : ℝ))) 0 with hz | hnz
    · rw [hz, div_zero] at hpt
      exact absurd hpt.symm hxR
    · have hx2 : (x : ℝ) = (x : ℝ) * Real.sqrt ((sumsq v : ℝ)) :=
        (div_eq_iff hnz).mp hpt
      have hmul : (x : ℝ) * 1 = (x : ℝ) * Real.sqrt ((sumsq v : ℝ)) := by
        rw [mul_one]; exact hx2
      exact (mul_left_cancel₀ hxR hmul).symm
  have hs1 : (sumsq v : ℝ) = 1 := by
    have hnn : (0 : ℝ) ≤ (sumsq v : ℝ) := by exact_mod_cast sumsq_nonneg v
    calc (sumsq v : ℝ)
        = Real.sqrt ((sumsq v : ℝ)) * Real.sqrt ((sumsq v : ℝ)) :=
          (Real.mul_self_sqrt hnn).symm
      _ = 1 := by rw [hc]; ring
  exact h1 (by exact_mod_cast hs1)

/-! ### Concrete inputs for the dense-encoding claims -/

/-- A raw backend response of width exactly EMBEDDING_DIM whose single row is
not unit-norm: what a remote TEI server may return when its model is already
512-wide and its output is not normalized. -/
def rawWidthD : List (List ℚ) := [(2 : ℚ) :: List.replicate 511 0]

/-- A raw backend response of width 513 > EMBEDDING_DIM whose 512-prefix has
squared norm 25. -/
def rawWide : List (List ℚ) := [(3 : ℚ) :: 4 :: List.replicate 511 0]

/-! ### database_manager.py: the Qdrant state and its operations -/

/-- qdrant_client Distance metrics. -/
inductive Distance
  | cosine
  | dot
  | euclid
deriving DecidableEq, Repr

/-- qdrant_client VectorParams for a named dense vector field. -/
structure VectorParams where
  size : Nat
  distance : Distance
deriving DecidableEq, Repr

/-- The schema of a Qdrant collection: its named dense vector fields (with
parameters) and its named sparse vector fields. -/
structure CollectionSchema where
  vectors_config : List (String × VectorParams)
  sparse_vectors_config : List String
deriving DecidableEq, Repr

/-- qdrant_client SparseVector: parallel index and value sequences. -/
structure SparseVector where
  indices : List Nat
  values : List ℚ
deriving DecidableEq, Repr

/-- qdrant_client PointStruct as built by database_manager.add_single: the
vector dict is split into its dense entries (name to dense vector, over ℝ
because dense vectors come out of encode_dense) and its sparse entries. -/
structure PointStruct where
  id : String
  dense : List (String × List ℝ)
  sparse : List (String × SparseVector)
  payload : List (String × String)

/-- The observable state of the Qdrant server: the collections (name and
schema, names unique on a real server) and the stored points, each tagged
with its collection name. -/
structure StoreState where
  collections : List (String × CollectionSchema)
  points : List (String × PointStruct)

/-- A store with no collections and no points. -/
def emptyStore : StoreState := { collections := [], points := [] }

/-- client.get_collections, projected to the collection names the code
compares against. -/
def get_collections (st : StoreState) : List String := st.collections.map Prod.fst

/-- client.create_collection: registers a new collection under the given
schema. -/
def create_collection (st : StoreState) (name : String) (schema : CollectionSchema) :
    StoreState :=
  { st with collections := st.collections ++ [(name, schema)] }

/-- The exact schema database_manager.ensure_collection passes to
create_collection: one dense field "text" of size EMBEDDING_DIM with cosine
distance, and no sparse_vectors_config at all. -/
def productsSchema : CollectionSchema :=
  { vectors_config := [("text", { size := EMBEDDING_DIM, distance := Distance.cosine })]
    sparse_vectors_config := [] }

/-- database_manager.ensure_collection: create the collection under
COLLECTION_NAME if its name is absent from the server, otherwise do nothing. -/
def ensure_collection (st : StoreState) : StoreState :=
  if COLLECTION_NAME ∈ get_collections st then st
  else create_collection st COLLECTION_NAME productsSchema

/-- The schema stored for a given collection name, if any. -/
def schemaLookup (st : StoreState) (name : String) : Option CollectionSchema :=
  (st.collections.find? (fun c => c.1 == name)).map Prod.snd

/-- Qdrant upsert of one point: replaces any point of the same collection and
id, then appends the new point. -/
def upsertPoint (pts : List (String × PointStruct)) (cname : String) (p : PointStruct) :
    List (String × PointStruct) :=
  pts.filter (fun q => !(q.1 == cname && q.2.id == p.id)) ++ [(cname, p)]

/-- client.upsert with a list of points. -/
def upsert (st : StoreState) (cname : String) (ps : List PointStruct) : StoreState :=
  { st with points := ps.foldl (fun acc p => upsertPoint acc cname p) st.points }

/-- database_manager.add_single: build a PointStruct with the dense vector
under name "text", the sparse vector under name "bm25" and payload
exactly the single entry ("text", text), upsert it, and return the id.
The uuid4 value generated inside the function is modelled as the
parameter uid. -/
def add_single (st : StoreState) (uid : String) (text : String)
    (dense_vector : List ℝ) (sparse_vector : SparseVector) : StoreState × String :=
  let point : PointStruct :=
    { id := uid
      dense := [("text", dense_vector)]
      sparse := [("bm25", sparse_vector)]
      payload := [("text", text)] }
  (upsert st COLLECTION_NAME [point], uid)

/-- database_manager.upsert_batch: the body of the Python function is
literally `pass`, so it performs no store write at all. -/
def upsert_batch (st : StoreState) (vectors : List (List ℝ))
    (payloads : List (List (String × String))) : StoreState :=
  st

/-! ### search_engine.py -/

/-- The encoder and store calls the retrieval orchestrator can make, in the
order it makes them. -/
inductive Action
  | callEncodeDense (texts : List String)
  | callEncodeSparse (text : String)
  | callQueryPoints (using_ : String) (limit : Int)
deriving DecidableEq, Repr

/-- database_manager.search: `k = top_k or config.TOP_K`, then one
query_points call against the named dense vector "text" with limit k. -/
def db_search (top_k : Option Int) : List Action :=
  [Action.callQueryPoints "text" (pyOrInt top_k TOP_K)]

/-- database_manager.search_sparse: `k = top_k or config.TOP_K`, then one
query_points call against the named sparse vector "bm25" with limit k. -/
def db_search_sparse (top_k : Option Int) : List Action :=
  [Action.callQueryPoints "bm25" (pyOrInt top_k TOP_K)]

/-- search_engine.search, modelled as the sequence of encoder and store calls
it performs: `mode = mode or config.SEARCH_MODE`, `k = top_k or config.TOP_K`,
then the sparse path (encode_sparse plus search_sparse) when mode equals
"sparse" and the dense path (encode_dense on the one-element list plus
search) otherwise. The function performs no validation and raises nothing. -/
def search_engine_search (query : String) (top_k : Option Int) (mode : Option String) :
    List Action :=
  let m := pyOrStr mode SEARCH_MODE
  let k := pyOrInt top_k TOP_K
  if m = "sparse" then
    Action.callEncodeSparse query :: db_search_sparse (some k)
  else
    Action.callEncodeDense [query] :: db_search (some k)

/-- search_engine.add_document: encode the text densely (the backend raw
response for the one-element batch is rawDense, of which encode_dense and
the `[0]` indexing keep the first row), encode it sparsely (sparseVec is
the lexical encoder's output), then add_single. -/
noncomputable def add_document (st : StoreState) (uid : String) (text : String)
    (rawDense : List (List ℚ)) (sparseVec : SparseVector) : StoreState × String :=
  let dense := (encode_dense rawDense).headD []
  add_single st uid text dense sparseVec

/-! ### ingestion.py -/

/-- A loaded record: an association list of field name to value, the shape of
one JSON object or one CSV row after to_dict. -/
def Record : Type := List (String × String)

/-- Python `text_field in item` for a record. -/
def hasField (item : Record) (tf : String) : Bool :=
  (List.map Prod.fst item).contains tf

/-- Python `item[tf]` after presence is known (empty string as the unused
KeyError default). -/
def getField (item : Record) (tf : String) : String :=
  match List.find? (fun kv => kv.1 == tf) item with
  | some kv => kv.2
  | none => ""

/-- ingestion.load_data, JSON branch: walk the parsed list and raise
ValueError at the first record that lacks the text field, otherwise keep
every record. The loop appends each checked item, so the success value is
the input list itself. -/
def load_data_json (data : List Record) (text_field : String) :
    Except PyError (List Record) :=
  if data.all (fun item => hasField item text_field) then Except.ok data
  else Except.error (PyError.valueError ("Field " ++ text_field ++ " not found in record."))

/-- A parsed CSV file: its column names and its rows, one optional value per
named cell, none standing for a missing value (pandas NaN). -/
structure CsvFile where
  columns : List String
  rows : List (List (String × Option String))

/-- The value of one CSV cell. -/
def csvGet (row : List (String × Option String)) (c : String) : Option String :=
  match List.find? (fun kv => kv.1 == c) row with
  | some kv => kv.2
  | none => none

/-- pandas df.dropna(subset=[tf]): keep only the rows whose cell in column tf
holds a value. -/
def dropna (rows : List (List (String × Option String))) (tf : String) :
    List (List (String × Option String)) :=
  rows.filter (fun r => (csvGet r tf).isSome)

/-- df.to_dict(orient="records") on one row, keeping the cells that hold a
value. -/
def rowToRecord (row : List (String × Option String)) : Record :=
  row.filterMap (fun kv => match kv.2 with
    | some v => some (kv.1, v)
    | none => none)

/-- ingestion.load_data, CSV branch: raise ValueError when the text column is
absent from the file, otherwise drop the rows with a missing text value
(dropna) and return the remaining rows as records. -/
def load_data_csv (file : CsvFile) (text_field : String) :
    Except PyError (List Record) :=
  if file.columns.contains text_field then
    Except.ok ((dropna file.rows text_field).map rowToRecord)
  else
    Except.error (PyError.valueError ("Column " ++ text_field ++ " not found."))

/-- The input of ingestion.load_data: a parsed JSON list or a parsed CSV
file. -/
inductive DataFile
  | json (data : List Record)
  | csv (file : CsvFile)

/-- ingestion.load_data. -/
def load_data : DataFile → String → Except PyError (List Record)
  | DataFile.json d, tf => load_data_json d tf
  | DataFile.csv f, tf => load_data_csv f tf

/-- The module-level function names model_loader.py defines. There is no
plain `encode` among them, although ingestion.py calls model_loader.encode. -/
def model_loader_attrs : List String :=
  ["get_dense_model", "get_sparse_model", "encode_dense", "encode_sparse"]

/-- The Python attribute access `model_loader.encode(...)` made by
ingestion.ingest: model_loader.py defines no function named encode
(model_loader_attrs), so the call raises AttributeError. -/
def model_loader_encode (texts : List String) (batch_size : Nat) :
    Except PyError (List (List ℝ)) :=
  Except.error (PyError.attributeError "module model_loader has no attribute encode")

/-- The batch slices `records[start : start + bs]` produced by
`range(0, total, bs)`, via a fuel argument bounded by the list length
(bs ≥ 1 makes the fuel sufficient). -/
def chunksAux (fuel : Nat) (bs : Nat) (l : List Record) : List (List Record) :=
  match fuel, l with
  | 0, _ => []
  | _, [] => []
  | f + 1, l => l.take bs :: chunksAux f bs (l.drop bs)

/-- The list of batches of an ingest run. -/
def chunks (bs : Nat) (l : List Record) : List (List Record) :=
  chunksAux l.length bs l

/-- The per-batch loop body of ingestion.ingest: extract the batch texts,
call model_loader.encode (which raises AttributeError), then upsert_batch.
An exception from any batch propagates and ends the run. -/
def ingestBatches (tf : String) (bs : Nat) (st : StoreState) :
    List (List Record) → Except PyError StoreState
  | [] => Except.ok st
  | batch :: rest =>
      let batch_texts := batch.map (fun r => getField r tf)
      match model_loader_encode batch_texts bs with
      | Except.error e => Except.error e
      | Except.ok vectors => ingestBatches tf bs (upsert_batch st vectors batch) rest

/-- ingestion.ingest: `bs = batch_size or config.BATCH_SIZE`, load_data,
ensure_collection, then the batch loop; on success the function returns
`total`, the number of loaded records, not a count of written records. -/
def ingest (file : DataFile) (text_field : String) (batch_size : Option Nat)
    (st : StoreState) : Except PyError (Nat × StoreState) :=
  let bs := pyOrNat batch_size BATCH_SIZE
  match load_data file text_field with
  | Except.error e => Except.error e
  | Except.ok records =>
      let total := records.length
      let st1 := ensure_collection st
      match ingestBatches text_field bs st1 (chunks bs records) with
      | Except.error e => Except.error e
      | Except.ok st2 => Except.ok (total, st2)

/-! ### Helper lemmas for the claim theorems -/

theorem embWidth_eq_of_rect (raw : List (List ℚ)) (W : Nat) (hne : raw ≠ [])
    (hrect : ∀ r ∈ raw, r.length = W) : embWidth raw = W := by
  cases raw with
  | nil => exact absurd rfl hne
  | cons r t => exact hrect r (List.mem_cons_self r t)

/-! ### Claim C4 -/

/-- C4, counterexample: the claim says every vector returned by encode_dense
has length exactly D and unit L2 norm for both backends. The remote backend
applies no normalization: on the raw response rawWidthD, whose width equals
EMBEDDING_DIM, the truncation branch is skipped and the single returned
vector has squared norm 4, not 1. -/
theorem C4_encode_dense_counterexample :
    rawWidthD ≠ [] ∧ embWidth rawWidthD = EMBEDDING_DIM ∧
    ¬ (∀ w ∈ encode_dense rawWidthD, w.length = EMBEDDING_DIM ∧ sumsqR w = 1) := by
  refine ⟨by simp [rawWidthD], by simp [rawWidthD, embWidth, EMBEDDING_DIM], ?_⟩
  intro h
  have hmem : castRow ((2 : ℚ) :: List.replicate 511 0) ∈ encode_dense rawWidthD := by
    rw [encode_dense, if_neg (by simp [rawWidthD, embWidth, EMBEDDING_DIM])]
    simp [rawWidthD]
  have h1 := (h _ hmem).2
  have h4 : sumsqR (castRow ((2 : ℚ) :: List.replicate 511 0)) = 4 := by
    simp [castRow, sumsqR, List.map_replicate, List.sum_replicate]
    norm_num
  rw [h4] at h1
  norm_num at h1

/-- C4, amended: encode_dense always returns one vector per raw response row;
when the raw width strictly exceeds EMBEDDING_DIM and every row's
EMBEDDING_DIM-prefix is nonzero, every returned vector has length exactly
EMBEDDING_DIM and unit L2 norm; when the raw width is at most EMBEDDING_DIM,
the rows are returned unchanged, so their length and norm are whatever the
backend produced. -/
theorem C4_encode_dense_amended (raw : List (List ℚ)) (W : Nat) (hne : raw ≠ [])
    (hrect : ∀ r ∈ raw, r.length = W) :
    (encode_dense raw).length = raw.length ∧
    (EMBEDDING_DIM < W →
      (∀ r ∈ raw, sumsq (r.take EMBEDDING_DIM) ≠ 0) →
      ∀ w ∈ encode_dense raw, w.length = EMBEDDING_DIM ∧ sumsqR w = 1) ∧
    (W ≤ EMBEDDING_DIM → encode_dense raw = raw.map castRow) := by
  have hwidth : embWidth raw = W := embWidth_eq_of_rect raw W hne hrect
  refine ⟨?_, ?_, ?_⟩
  · rw [encode_dense]
    by_cases hc : EMBEDDING_DIM < embWidth raw
    · rw [if_pos hc, List.length_map]
    · rw [if_neg hc, List.length_map]
  · intro hW h0 w hw
    rw [encode_dense, if_pos (by rw [hwidth]; exact hW)] at hw
    obtain ⟨r, hr, rfl⟩ := List.mem_map.mp hw
    constructor
    · rw [renormalize_length, List.length_take, hrect r hr]
      omega
    · exact sumsqR_renormalize _ (h0 r hr)
  · intro hle
    rw [encode_dense, if_neg (by rw [hwidth]; omega)]

/-- C4, amended, witness at the concrete wide response rawWide. -/
theorem C4_encode_dense_amended_witness :
    rawWide ≠ [] ∧ (∀ r ∈ rawWide, r.length = 513) ∧
    ((encode_dense rawWide).length = rawWide.length ∧
      (EMBEDDING_DIM < 513 →
        (∀ r ∈ rawWide, sumsq (r.take EMBEDDING_DIM) ≠ 0) →
        ∀ w ∈ encode_dense rawWide, w.length = EMBEDDING_DIM ∧ sumsqR w = 1) ∧
      (513 ≤ EMBEDDING_DIM → encode_dense rawWide = rawWide.map castRow)) := by
  have hne : rawWide ≠ [] := by simp [rawWide]
  have hrect : ∀ r ∈ rawWide, r.length = 513 := by simp [rawWide]
  exact ⟨hne, hrect, C4_encode_dense_amended rawWide 513 hne hrect⟩

/-! ### Claim C5 -/

/-- C5: when the raw embedding width strictly exceeds EMBEDDING_DIM,
encode_dense returns for every row the first EMBEDDING_DIM components divided
by the norm of that slice; for every row whose slice is nonzero the result
has unit L2 norm, and whenever the slice was not already unit-norm the result
differs from the unnormalized slice. -/
theorem C5_truncate_renormalize (raw : List (List ℚ)) (W : Nat)
    (hrect : ∀ r ∈ raw, r.length = W) (hW : EMBEDDING_DIM < W) :
    encode_dense raw = raw.map (fun r => renormalize (r.take EMBEDDING_DIM)) ∧
    ∀ r ∈ raw, sumsq (r.take EMBEDDING_DIM) ≠ 0 →
      sumsqR (renormalize (r.take EMBEDDING_DIM)) = 1 ∧
      (sumsq (r.take EMBEDDING_DIM) ≠ 1 →
        renormalize (r.take EMBEDDING_DIM) ≠ castRow (r.take EMBEDDING_DIM)) := by
  constructor
  · cases raw with
    | nil => simp [encode_dense, embWidth]
    | cons r t =>
        have hwidth : embWidth (r :: t) = W :=
          embWidth_eq_of_rect (r :: t) W (by simp) hrect
        rw [encode_dense, if_pos (by rw [hwidth]; exact hW)]
  · intro r _ h0
    exact ⟨sumsqR_renormalize _ h0, fun h1 => renormalize_ne_castRow _ h0 h1⟩

/-- C5, witness at the concrete wide response rawWide, whose single row has
width 513 and a 512-prefix of squared norm 25. -/
theorem C5_truncate_renormalize_witness :
    (∀ r ∈ rawWide, r.length = 513) ∧ EMBEDDING_DIM < 513 ∧
    (encode_dense rawWide = rawWide.map (fun r => renormalize (r.take EMBEDDING_DIM)) ∧
      ∀ r ∈ rawWide, sumsq (r.take EMBEDDING_DIM) ≠ 0 →
        sumsqR (renormalize (r.take EMBEDDING_DIM)) = 1 ∧
        (sumsq (r.take EMBEDDING_DIM) ≠ 1 →
          renormalize (r.take EMBEDDING_DIM) ≠ castRow (r.take EMBEDDING_DIM))) := by
  have hrect : ∀ r ∈ rawWide, r.length = 513 := by simp [rawWide]
  have hW : EMBEDDING_DIM < 513 := by decide
  exact ⟨hrect, hW, C5_truncate_renormalize rawWide 513 hrect hW⟩

/-! ### Claim C2 -/

theorem get_collections_create (st : StoreState) (n : String) (s : CollectionSchema) :
    get_collections (create_collection st n s) = get_collections st ++ [n] := by
  simp [get_collections, create_collection]

theorem schemaLookup_create_of_absent (st : StoreState) (n : String)
    (s : CollectionSchema) (h : n ∉ get_collections st) :
    schemaLookup (create_collection st n s) n = some s := by
  have hnone : st.collections.find? (fun c => c.1 == n) = none := by
    rw [List.find?_eq_none]
    intro c hc
    simp only [beq_iff_eq]
    intro heq
    exact h (heq ▸ List.mem_map_of_mem Prod.fst hc)
  rw [schemaLookup, create_collection]
  simp only [List.find?_append, hnone, Option.none_or, List.find?_singleton]
  simp

/-- C2, counterexample: on a store with no collections, ensure_collection
creates the collection under the schema productsSchema, whose
sparse_vectors_config is empty: the created schema carries no sparse lexical
field, refuting the claimed dense-plus-sparse layout. -/
theorem C2_created_schema_counterexample :
    schemaLookup (ensure_collection emptyStore) COLLECTION_NAME = some productsSchema ∧
    ¬ (("text", { size := EMBEDDING_DIM, distance := Distance.cosine }) ∈
          productsSchema.vectors_config ∧
        productsSchema.sparse_vectors_config ≠ []) := by
  constructor
  · have h : COLLECTION_NAME ∉ get_collections emptyStore := by
      simp [emptyStore, get_collections]
    rw [ensure_collection, if_neg h]
    exact schemaLookup_create_of_absent emptyStore COLLECTION_NAME productsSchema h
  · rintro ⟨-, hs⟩
    exact hs rfl

/-- C2, amended: when the collection is absent, ensure_collection creates it
with exactly one dense vector field "text" of dimension EMBEDDING_DIM under
the cosine metric and with no sparse vector field at all (the code leaves the
sparse field to the restored snapshot). -/
theorem C2_created_schema_amended (st : StoreState)
    (h : COLLECTION_NAME ∉ get_collections st) :
    schemaLookup (ensure_collection st) COLLECTION_NAME = some productsSchema ∧
    productsSchema.vectors_config =
      [("text", { size := EMBEDDING_DIM, distance := Distance.cosine })] ∧
    productsSchema.sparse_vectors_config = [] := by
  refine ⟨?_, rfl, rfl⟩
  rw [ensure_collection, if_neg h]
  exact schemaLookup_create_of_absent st COLLECTION_NAME productsSchema h

/-- C2, amended, witness at the empty store. -/
theorem C2_created_schema_amended_witness :
    COLLECTION_NAME ∉ get_collections emptyStore ∧
    (schemaLookup (ensure_collection emptyStore) COLLECTION_NAME = some productsSchema ∧
      productsSchema.vectors_config =
        [("text", { size := EMBEDDING_DIM, distance := Distance.cosine })] ∧
      productsSchema.sparse_vectors_config = []) := by
  have h : COLLECTION_NAME ∉ get_collections emptyStore := by
    simp [emptyStore, get_collections]
  exact ⟨h, C2_created_schema_amended emptyStore h⟩

/-! ### Claim C8 -/

theorem mem_get_collections_ensure (st : StoreState) :
    COLLECTION_NAME ∈ get_collections (ensure_collection st) := by
  by_cases hm : COLLECTION_NAME ∈ get_collections st
  · rw [ensure_collection, if_pos hm]; exact hm
  · rw [ensure_collection, if_neg hm, get_collections_create]
    exact List.mem_append_right _ (List.mem_singleton.mpr rfl)

theorem ensure_collection_of_mem (st : StoreState)
    (hm : COLLECTION_NAME ∈ get_collections st) : ensure_collection st = st := by
  rw [ensure_collection, if_pos hm]

/-- C8: ensure_collection is idempotent: it never raises (it is a total
function of the store), a second call is the identity, a call on a store
already holding the collection is the identity, and after two calls the
collection name occurs exactly once among the collections of a well-formed
server (collection names unique). -/
theorem C8_ensure_collection_idempotent (st : StoreState)
    (h : (get_collections st).Nodup) :
    ensure_collection (ensure_collection st) = ensure_collection st ∧
    (COLLECTION_NAME ∈ get_collections st → ensure_collection st = st) ∧
    (get_collections (ensure_collection (ensure_collection st))).count COLLECTION_NAME = 1 := by
  have hmem := mem_get_collections_ensure st
  have hidem : ensure_collection (ensure_collection st) = ensure_collection st :=
    ensure_collection_of_mem (ensure_collection st) hmem
  refine ⟨hidem, fun hm => ensure_collection_of_mem st hm, ?_⟩
  rw [hidem]
  by_cases hm : COLLECTION_NAME ∈ get_collections st
  · rw [ensure_collection, if_pos hm]
    exact List.count_eq_one_of_mem h hm
  · rw [ensure_collection, if_neg hm, get_collections_create, List.count_append,
      List.count_eq_zero_of_not_mem hm]
    rfl

/-- C8, witness at the empty store. -/
theorem C8_ensure_collection_idempotent_witness :
    (get_collections emptyStore).Nodup ∧
    (ensure_collection (ensure_collection emptyStore) = ensure_collection emptyStore ∧
      (COLLECTION_NAME ∈ get_collections emptyStore → ensure_collection emptyStore = emptyStore) ∧
      (get_collections (ensure_collection (ensure_collection emptyStore))).count COLLECTION_NAME
        = 1) := by
  have h : (get_collections emptyStore).Nodup := by simp [emptyStore, get_collections]
  exact ⟨h, C8_ensure_collection_idempotent emptyStore h⟩

/-! ### Claim C10 -/

/-- C10: add_document upserts exactly one point, whose payload is exactly the
single-entry mapping from "text" to the given text, whose id is the freshly
generated uuid (modelled as the parameter uid, assumed fresh w.r.t. the
store), and that uid is also the returned value; the collections are
untouched. -/
theorem C10_add_document_payload (st : StoreState) (uid text : String)
    (rawDense : List (List ℚ)) (sparseVec : SparseVector)
    (hfresh : ∀ q ∈ st.points, ¬(q.1 = COLLECTION_NAME ∧ q.2.id = uid)) :
    (add_document st uid text rawDense sparseVec).2 = uid ∧
    (add_document st uid text rawDense sparseVec).1.points =
      st.points ++ [(COLLECTION_NAME,
        { id := uid
          dense := [("text", (encode_dense rawDense).headD [])]
          sparse := [("bm25", sparseVec)]
          payload := [("text", text)] })] ∧
    (add_document st uid text rawDense sparseVec).1.collections = st.collections := by
  have hf : st.points.filter
      (fun q => !(q.1 == COLLECTION_NAME && q.2.id == uid)) = st.points := by
    apply List.filter_eq_self.mpr
    intro q hq
    have hq2 : q.1 = COLLECTION_NAME → ¬ q.2.id = uid := not_and.mp (hfresh q hq)
    by_cases h1 : q.1 = COLLECTION_NAME
    · simp [h1, hq2 h1]
    · simp [h1]
  refine ⟨rfl, ?_, rfl⟩
  show (upsertPoint st.points COLLECTION_NAME _) = _
  rw [upsertPoint, hf]

/-- C10, witness: adding the text "hello" to the empty store with the fresh
id "u1", a one-row dense backend response and a one-entry sparse vector. -/
theorem C10_add_document_payload_witness :
    (∀ q ∈ emptyStore.points, ¬(q.1 = COLLECTION_NAME ∧ q.2.id = "u1")) ∧
    ((add_document emptyStore "u1" "hello" [[(1 : ℚ)]] ⟨[0], [1]⟩).2 = "u1" ∧
      (add_document emptyStore "u1" "hello" [[(1 : ℚ)]] ⟨[0], [1]⟩).1.points =
        emptyStore.points ++ [(COLLECTION_NAME,
          { id := "u1"
            dense := [("text", (encode_dense [[(1 : ℚ)]]).headD [])]
            sparse := [("bm25", ⟨[0], [1]⟩)]
            payload := [("text", "hello")] })] ∧
      (add_document emptyStore "u1" "hello" [[(1 : ℚ)]] ⟨[0], [1]⟩).1.collections =
        emptyStore.collections) := by
  have h : ∀ q ∈ emptyStore.points, ¬(q.1 = COLLECTION_NAME ∧ q.2.id = "u1") := by
    simp [emptyStore]
  exact ⟨h, C10_add_document_payload emptyStore "u1" "hello" [[(1 : ℚ)]] ⟨[0], [1]⟩ h⟩

/-! ### Claim C3 -/

theorem pyOrInt_some_of_ne (k d : Int) (hk : k ≠ 0) : pyOrInt (some k) d = k := by
  show (if k = 0 then d else k) = k
  rw [if_neg hk]

theorem pyOrInt_topk_ne_zero (t : Option Int) : pyOrInt t TOP_K ≠ 0 := by
  cases t with
  | none => decide
  | some v =>
      show (if v = 0 then TOP_K else v) ≠ 0
      by_cases hv : v = 0
      · rw [if_pos hv]; decide
      · rw [if_neg hv]; exact hv

/-- C3, counterexample: the claim says a call with top_k at most 0 is
rejected before any encoding or store call. With top_k = 0 (and the default
mode), search_engine.search invokes the sparse encoder and queries the store
with the default limit 5: the zero is silently replaced through Python
falsiness instead of being rejected. -/
theorem C3_topk_counterexample :
    (0 : Int) ≤ 0 ∧
    search_engine_search "query" (some 0) none =
      [Action.callEncodeSparse "query", Action.callQueryPoints "bm25" 5] ∧
    Action.callEncodeSparse "query" ∈ search_engine_search "query" (some 0) none := by
  refine ⟨le_refl 0, rfl, ?_⟩
  rw [show search_engine_search "query" (some 0) none =
    [Action.callEncodeSparse "query", Action.callQueryPoints "bm25" 5] from rfl]
  exact List.mem_cons_self _ _

/-- C3, amended: search performs no top_k validation at all: top_k = 0 is
falsy and silently falls back to the configured default TOP_K (the call
behaves exactly like one with no top_k), and a negative top_k is passed
through to the encoder and the store query unchanged; no error is raised. -/
theorem C3_topk_amended (q : String) (m : Option String) (k : Int) (hk : k < 0) :
    search_engine_search q (some 0) m = search_engine_search q none m ∧
    (search_engine_search q (some k) m =
        [Action.callEncodeSparse q, Action.callQueryPoints "bm25" k] ∨
      search_engine_search q (some k) m =
        [Action.callEncodeDense [q], Action.callQueryPoints "text" k]) := by
  have hk0 : k ≠ 0 := ne_of_lt hk
  constructor
  · simp [search_engine_search, pyOrInt]
  · by_cases hm : pyOrStr m SEARCH_MODE = "sparse"
    · left
      simp [search_engine_search, hm, db_search_sparse, pyOrInt, hk0]
    · right
      simp [search_engine_search, hm, db_search, pyOrInt, hk0]

/-- C3, amended, witness at top_k = -1 with the default mode. -/
theorem C3_topk_amended_witness :
    (-1 : Int) < 0 ∧
    (search_engine_search "x" (some 0) none = search_engine_search "x" none none ∧
      (search_engine_search "x" (some (-1)) none =
          [Action.callEncodeSparse "x", Action.callQueryPoints "bm25" (-1)] ∨
        search_engine_search "x" (some (-1)) none =
          [Action.callEncodeDense ["x"], Action.callQueryPoints "text" (-1)])) := by
  have hk : (-1 : Int) < 0 := by decide
  exact ⟨hk, C3_topk_amended "x" none (-1) hk⟩

/-! ### Claim C9 -/

/-- C9, counterexample: the claim says every mode string other than "sparse"
routes to the dense path. The empty string is falsy in Python, so
`mode or config.SEARCH_MODE` replaces it with the configured default
"sparse" and the query takes the sparse path. -/
theorem C9_mode_counterexample :
    "" ≠ "sparse" ∧
    search_engine_search "q" none (some "") =
      [Action.callEncodeSparse "q", Action.callQueryPoints "bm25" 5] := by
  exact ⟨by decide, rfl⟩

/-- C9, amended: every non-empty mode string other than "sparse" (including
"hybrid" and any unrecognized string) routes to the dense path; the empty
string falls back to the configured default mode exactly as an absent mode
does (and the default SEARCH_MODE is "sparse"); the string "sparse" selects
the sparse path. -/
theorem C9_mode_amended (q : String) (t : Option Int) (m : String)
    (hm : m ≠ "sparse") (hne : m ≠ "") :
    search_engine_search q t (some m) =
      [Action.callEncodeDense [q], Action.callQueryPoints "text" (pyOrInt t TOP_K)] ∧
    search_engine_search q t (some "") = search_engine_search q t none ∧
    search_engine_search q t (some "sparse") =
      [Action.callEncodeSparse q, Action.callQueryPoints "bm25" (pyOrInt t TOP_K)] := by
  have hkne := pyOrInt_topk_ne_zero t
  refine ⟨?_, ?_, ?_⟩
  · have hstr : pyOrStr (some m) SEARCH_MODE = m := by
      show (if m = "" then SEARCH_MODE else m) = m
      rw [if_neg hne]
    simp only [search_engine_search, hstr, db_search]
    rw [if_neg hm, pyOrInt_some_of_ne _ _ hkne]
  · simp [search_engine_search, pyOrStr]
  · simp only [search_engine_search, db_search_sparse]
    have hstr : pyOrStr (some "sparse") SEARCH_MODE = "sparse" := rfl
    rw [hstr, if_pos rfl, pyOrInt_some_of_ne _ _ hkne]

/-- C9, amended, witness at the unimplemented mode string "hybrid". -/
theorem C9_mode_amended_witness :
    "hybrid" ≠ "sparse" ∧ "hybrid" ≠ "" ∧
    (search_engine_search "x" none (some "hybrid") =
        [Action.callEncodeDense ["x"], Action.callQueryPoints "text" (pyOrInt none TOP_K)] ∧
      search_engine_search "x" none (some "") = search_engine_search "x" none none ∧
      search_engine_search "x" none (some "sparse") =
        [Action.callEncodeSparse "x", Action.callQueryPoints "bm25" (pyOrInt none TOP_K)]) := by
  have hm : "hybrid" ≠ "sparse" := by decide
  have hne : "hybrid" ≠ "" := by decide
  exact ⟨hm, hne, C9_mode_amended "x" none "hybrid" hm hne⟩

/-! ### Claim C1 -/

/-- C1: the ingestion pipeline is broken in the code. Its batch loop calls
model_loader.encode, which model_loader.py does not define, so the first
batch of any nonempty run raises AttributeError: the pipeline never reaches
a sparse encoding and never reaches an upsert. Moreover
database_manager.upsert_batch, the only store write ingestion would use, is
a pass stub that writes nothing, so no VectorRecord holding both a dense and
a sparse field (nor any record at all) is ever written by ingestion. -/
theorem C1_ingest_never_writes_both :
    ingest (DataFile.json [[("text", "a")]]) "text" none emptyStore =
      Except.error (PyError.attributeError "module model_loader has no attribute encode") ∧
    "encode" ∉ model_loader_attrs ∧
    (∀ st v p, upsert_batch st v p = st) := by
  refine ⟨rfl, by decide, fun st v p => rfl⟩

/-! ### Claim C6 -/

/-- C6: ingest does not report a partial-success count. On any nonempty
input the batch loop raises AttributeError, which propagates with no count
at all; and whenever ingest does return a value, that value is the length of
the loaded record list (the total input size), not a count of records
actually written (upsert_batch writes nothing). -/
theorem C6_ingest_count_not_partial :
    ingest (DataFile.json [[("text", "a")], [("text", "b")], [("text", "c")]])
        "text" none emptyStore =
      Except.error (PyError.attributeError "module model_loader has no attribute encode") ∧
    (∀ file tf bs st n st2, ingest file tf bs st = Except.ok (n, st2) →
      ∃ records, load_data file tf = Except.ok records ∧ n = records.length) := by
  refine ⟨rfl, ?_⟩
  intro file tf bs st n st2 hok
  unfold ingest at hok
  split at hok
  · exact absurd hok (by simp)
  · rename_i records hld
    dsimp only at hok
    split at hok
    · exact absurd hok (by simp)
    · rename_i st3 hib
      simp only [Except.ok.injEq, Prod.mk.injEq] at hok
      exact ⟨records, hld, hok.1.symm⟩

/-- C6, witness: the one observable successful run, the empty input, where
the returned total and the written count agree at zero. -/
theorem C6_ingest_count_not_partial_witness :
    ingest (DataFile.json []) "text" none emptyStore =
      Except.ok (0, ensure_collection emptyStore) ∧
    ∃ records, load_data (DataFile.json []) "text" = Except.ok records ∧
      0 = records.length := by
  have h : ingest (DataFile.json []) "text" none emptyStore =
      Except.ok (0, ensure_collection emptyStore) := rfl
  exact ⟨h, C6_ingest_count_not_partial.2 (DataFile.json []) "text" none emptyStore 0
    (ensure_collection emptyStore) h⟩

/-! ### Claim C7 -/

/-- A CSV file whose second row has no value in the text column. -/
def csvMissing : CsvFile :=
  { columns := ["text"]
    rows := [[("text", some "a")], [("text", none)]] }

/-- C7, counterexample: a CSV record with a missing text value does not abort
the run: load_data silently drops the row (pandas dropna) and returns the
remaining records, and the ingest run then proceeds into the encoding stage
(where it dies with the unrelated AttributeError of the broken encode call),
so no ValidationError is raised for the missing field. -/
theorem C7_csv_skip_counterexample :
    (∃ row ∈ csvMissing.rows, csvGet row "text" = none) ∧
    load_data (DataFile.csv csvMissing) "text" = Except.ok [[("text", "a")]] ∧
    ingest (DataFile.csv csvMissing) "text" none emptyStore =
      Except.error (PyError.attributeError "module model_loader has no attribute encode") := by
  refine ⟨⟨[("text", none)], by simp [csvMissing], rfl⟩, rfl, rfl⟩

/-- C7, amended: for JSON input any record lacking the text field aborts the
whole run with a ValueError (the ValidationError of the spec) before any
encoding; for CSV input a missing text column aborts likewise, but a row
with a missing value in the text column is silently dropped before encoding
(per-record skip) and the run proceeds with the remaining rows. -/
theorem C7_missing_field_amended (data : List Record) (file : CsvFile) (tf : String)
    (st : StoreState) (bs : Option Nat) :
    ((∃ item ∈ data, hasField item tf = false) →
      ingest (DataFile.json data) tf bs st =
        Except.error (PyError.valueError ("Field " ++ tf ++ " not found in record."))) ∧
    (tf ∉ file.columns →
      ingest (DataFile.csv file) tf bs st =
        Except.error (PyError.valueError ("Column " ++ tf ++ " not found."))) ∧
    (tf ∈ file.columns →
      load_data (DataFile.csv file) tf =
        Except.ok ((dropna file.rows tf).map rowToRecord)) ∧
    (∀ r ∈ file.rows, csvGet r tf = none → r ∉ dropna file.rows tf) := by
  refine ⟨?_, ?_, ?_, ?_⟩
  · intro hex
    obtain ⟨item, hitem, hmiss⟩ := hex
    have hall : data.all (fun item => hasField item tf) = false := by
      rw [List.all_eq_false]
      exact ⟨item, hitem, by rw [hmiss]; exact Bool.false_ne_true⟩
    have hld : load_data (DataFile.json data) tf =
        Except.error (PyError.valueError ("Field " ++ tf ++ " not found in record.")) := by
      show load_data_json data tf = _
      simp [load_data_json, hall]
    unfold ingest
    rw [hld]
  · intro hcol
    have hc : file.columns.contains tf = false := by
      cases hcc : file.columns.contains tf
      · rfl
      · exact absurd (List.elem_iff.mp hcc) hcol
    have hld : load_data (DataFile.csv file) tf =
        Except.error (PyError.valueError ("Column " ++ tf ++ " not found.")) := by
      show load_data_csv file tf = _
      simp [load_data_csv, hc, hcol]
    unfold ingest
    rw [hld]
  · intro hcol
    have hc : file.columns.contains tf = true := List.elem_iff.mpr hcol
    show load_data_csv file tf = _
    simp [load_data_csv, hc, hcol]
  · intro r _ hnone hin
    rw [dropna, List.mem_filter] at hin
    rw [hnone] at hin
    exact absurd hin.2 (by simp)

/-- C7, amended, witness: a JSON record without the text field aborts with
the ValueError; a CSV file without the text column aborts; a CSV file with
the column but a missing value in one row loads with that row dropped. -/
theorem C7_missing_field_amended_witness :
    (∃ item ∈ [[("other", "b")]], hasField item "text" = false) ∧
    ingest (DataFile.json [[("other", "b")]]) "text" none emptyStore =
      Except.error (PyError.valueError ("Field " ++ "text" ++ " not found in record.")) ∧
    ("text" ∉ (CsvFile.mk ["body"] []).columns) ∧
    ingest (DataFile.csv (CsvFile.mk ["body"] [])) "text" none emptyStore =
      Except.error (PyError.valueError ("Column " ++ "text" ++ " not found.")) ∧
    ("text" ∈ csvMissing.columns) ∧
    load_data (DataFile.csv csvMissing) "text" =
      Except.ok ((dropna csvMissing.rows "text").map rowToRecord) := by
  have h1 : ∃ item ∈ [[("other", "b")]], hasField item "text" = false := by
    exact ⟨[("other", "b")], by simp, rfl⟩
  have h2 : "text" ∉ (CsvFile.mk ["body"] []).columns := by simp
  have h3 : "text" ∈ csvMissing.columns := by simp [csvMissing]
  exact ⟨h1,
    (C7_missing_field_amended [[("other", "b")]] (CsvFile.mk ["body"] []) "text"
      emptyStore none).1 h1,
    h2,
    (C7_missing_field_amended [[("other", "b")]] (CsvFile.mk ["body"] []) "text"
      emptyStore none).2.1 h2,
    h3,
    (C7_missing_field_amended [[("other", "b")]] csvMissing "text"
      emptyStore none).2.2.1 h3⟩
